import Mathlib

/-!
Verification of the tactical-combat core (units, squads, projectiles,
explosions, physics engine) of the rick-and-morty-tactical-rts repository.

The Python source is shallowly embedded: positions and scalar stats are
real numbers, Python objects become Lean structures, in-place mutation
becomes explicit state passing, and attributes that a `__init__` does not
set (so that reading them raises `AttributeError`) are modelled as
`Option` fields holding `none` after construction.  Calls to
`np.random.*` are modelled by explicit oracle arguments, so every
statement is quantified over the random draws.  Rendering-only fields
(sprites, animation timers, rotation, colors, selection flags) are
omitted; they are never read by the logic under verification.
The game world (the `game_state` collaborator) is modelled by the two
flattened unit lists returned by `get_all_player_units` /
`get_all_enemy_units`; Python object references between units are
modelled by the unique `id` each unit receives at construction.
-/

namespace RTS

noncomputable section
open Real

/-- A 3D vector / position, as used for `unit.position`,
`knockback_velocity`, projectile positions and directions. -/
structure Vec3 where
  x : ℝ
  y : ℝ
  z : ℝ

/-- The unit state strings `"idle"`, `"moving"`, `"attacking"`, `"dead"`
of `Unit.state` (src/game/units/unit.py). -/
inductive UState where
  | idle
  | moving
  | attacking
  | dead
deriving DecidableEq

/-- Python runtime faults that the embedded code can raise. -/
inductive PyFault where
  | attributeError
  | typeError
deriving DecidableEq

/-- `Unit.target` is either a unit id string (`isinstance(self.target, str)`
branch of `_update_attack`) or a direct object reference; object references
are modelled by the referenced unit's `id`. -/
inductive TargetRef where
  | byId (n : ℕ)
  | byRef (n : ℕ)
deriving DecidableEq

/-- The attacker recorded in `last_attacker` (a unit id, or `none`). -/
abbrev AttackerRef := Option ℕ

/-- The fields of `Unit` (src/game/units/unit.py `__init__`) that the
game logic reads or writes.  `attack_timer` and `destination` are
`Option ℝ` / `Option Vec3` holding `none` after `__init__`, because the
constructor never assigns them (they are only ever assigned elsewhere);
reading them while `none` is Python's `AttributeError`. -/
structure GameUnit where
  id : ℕ
  type_name : String
  position : Vec3
  faction : String
  health : ℝ
  max_health : ℝ
  state : UState
  target : Option TargetRef
  path : List Vec3
  speed : ℝ
  attack_range : ℝ
  attack_speed : ℝ
  damage : ℝ
  is_ranged : Bool
  knockback_power : ℝ
  knockback_resistance : ℝ
  knockback_recovery : ℝ
  knockback_timer : ℝ
  knockback_velocity : Vec3
  last_attacker : AttackerRef
  attack_timer : Option ℝ
  destination : Option Vec3

/-- `Unit.__init__`: the attribute values every freshly constructed unit
has.  Note that `attack_timer` is `none`: `__init__` never sets
`self.attack_timer`. -/
def initUnit (uid : ℕ) (type_name : String) (position : Vec3)
    (faction : String) : GameUnit where
  id := uid
  type_name := type_name
  position := position
  faction := faction
  health := 100
  max_health := 100
  state := .idle
  target := none
  path := []
  speed := 5
  attack_range := 1
  attack_speed := 1
  damage := 10
  is_ranged := false
  knockback_power := 0
  knockback_resistance := 0
  knockback_recovery := 2
  knockback_timer := 0
  knockback_velocity := ⟨0, 0, 0⟩
  last_attacker := none
  attack_timer := none
  destination := none

/-- `Unit.is_alive`: `self.state != "dead"`. -/
def GameUnit.is_alive (u : GameUnit) : Prop := u.state ≠ .dead

instance (u : GameUnit) : Decidable u.is_alive := by
  unfold GameUnit.is_alive; infer_instance

/-- `Unit.is_melee_unit`: `not self.is_ranged and self.attack_range <= 2.0`. -/
def GameUnit.is_melee_unit (u : GameUnit) : Prop :=
  u.is_ranged = false ∧ u.attack_range ≤ 2

instance (u : GameUnit) : Decidable u.is_melee_unit := by
  unfold GameUnit.is_melee_unit; infer_instance

/-- `Unit.take_damage(amount, attacker)`.  `rnd` is the oracle for
`np.random.random()`: when attacker and victim coincide horizontally the
code picks a random angle and uses its cosine/sine, which we receive as
the pair `rnd`. -/
def takeDamage (self : GameUnit) (amount : ℝ) (attacker : Option GameUnit)
    (rnd : ℝ × ℝ) : GameUnit :=
  -- self.health -= amount
  let health1 := self.health - amount
  -- knockback block: `if attacker is not None and attacker.is_melee_unit()`
  let self1 :=
    match attacker with
    | some a =>
      if a.is_melee_unit then
        let dx := self.position.x - a.position.x
        let dy := self.position.y - a.position.y
        let dir : ℝ × ℝ :=
          if dx = 0 ∧ dy = 0 then rnd
          else
            let mag := Real.sqrt (dx * dx + dy * dy)
            (dx / mag, dy / mag)
        let knockback_strength := max 0 (a.knockback_power - self.knockback_resistance)
        let knockback_distance := a.attack_range * 1.2 * knockback_strength
        { self with
          knockback_velocity :=
            ⟨dir.1 * knockback_distance, dir.2 * knockback_distance, 0⟩
          knockback_timer := self.knockback_recovery
          -- `if self.state != "dead": self.path = []`
          path := if self.state ≠ .dead then [] else self.path }
      else self
    | none => self
  -- self.last_attacker = attacker
  let self2 := { self1 with last_attacker := attacker.map GameUnit.id }
  -- `if self.health <= 0: self.health = 0; self.state = "dead"`
  if health1 ≤ 0 then
    { self2 with health := 0, state := .dead }
  else
    { self2 with health := health1 }

/-- `Unit.heal(amount)`: `self.health = min(self.health + amount, self.max_health)`. -/
def heal (self : GameUnit) (amount : ℝ) : GameUnit :=
  { self with health := min (self.health + amount) self.max_health }

/-- `Unit.set_destination(destination)`: stores the destination, sets
`path = [destination]` and `state = "moving"`.  It does not touch
`self.target`. -/
def setDestination (self : GameUnit) (destination : Vec3) : GameUnit :=
  { self with
    destination := some destination
    path := [destination]
    state := .moving }

/-- `Unit.move_to(target_position)` (called with a 3-component position):
`state = "moving"`, `target = None`, `path = [target_position]`. -/
def moveTo (self : GameUnit) (target_position : Vec3) : GameUnit :=
  { self with
    state := .moving
    target := none
    path := [target_position] }

/-- The game world as seen by the core: the flat unit lists that
`game_state.get_all_player_units()` / `get_all_enemy_units()` return. -/
structure GameState where
  player_units : List GameUnit
  enemy_units : List GameUnit

/-- Look up a unit by id in a list (the `for unit in ...: if unit.id == ...`
search loops of `_update_attack`). -/
def findById (units : List GameUnit) (n : ℕ) : Option GameUnit :=
  units.find? (fun u => u.id = n)

/-- Target resolution at the top of `Unit._update_attack`: a string id is
searched first among player units, then among enemy units; an object
reference (`hasattr(self.target, 'id')`) is used directly, which we model
by dereferencing the stored id in the world. -/
def resolveTarget (target : Option TargetRef) (gs : GameState) : Option GameUnit :=
  match target with
  | none => none
  | some (.byId n) =>
    match findById gs.player_units n with
    | some u => some u
    | none => findById gs.enemy_units n
  | some (.byRef n) =>
    match findById gs.player_units n with
    | some u => some u
    | none => findById gs.enemy_units n

/-- `Unit.is_valid_target`: target is not `None`, not dead, and of a
different faction. -/
def isValidTarget (self target : GameUnit) : Prop :=
  target.state ≠ .dead ∧ target.faction ≠ self.faction

instance (self target : GameUnit) : Decidable (isValidTarget self target) := by
  unfold isValidTarget; infer_instance

/-- Replace the unit with the given id by `u` in both world lists
(models in-place mutation of the referenced Python object). -/
def gsReplace (gs : GameState) (u : GameUnit) : GameState where
  player_units := gs.player_units.map (fun v => if v.id = u.id then u else v)
  enemy_units := gs.enemy_units.map (fun v => if v.id = u.id then u else v)

/-- `Unit._update_attack(dt, game_state)`.  Returns the updated attacker
and world, or the Python fault the code raises.  The crucial line is
`self.attack_timer += dt`: it reads `self.attack_timer`, which no
constructor ever sets, so when the field is absent (`none`) the call
raises `AttributeError`.  `rnd` is the random oracle forwarded to
`take_damage`. -/
def updateAttack (self : GameUnit) (dt : ℝ) (gs : GameState)
    (rnd : ℝ × ℝ) : Except PyFault (GameUnit × GameState) :=
  match resolveTarget self.target gs with
  | none => .ok ({ self with state := .idle, target := none }, gs)
  | some target_unit =>
    if ¬ isValidTarget self target_unit then
      .ok ({ self with state := .idle, target := none }, gs)
    else
      let dx := target_unit.position.x - self.position.x
      let dy := target_unit.position.y - self.position.y
      let distance := Real.sqrt (dx * dx + dy * dy)
      if distance > self.attack_range then
        .ok ({ self with state := .moving, path := [target_unit.position] }, gs)
      else
        match self.attack_timer with
        | none => .error .attributeError
        | some t =>
          let t' := t + dt
          if t' ≥ 1 / self.attack_speed then
            let victim := takeDamage target_unit self.damage (some self) rnd
            .ok ({ self with attack_timer := some 0 }, gsReplace gs victim)
          else
            .ok ({ self with attack_timer := some t' }, gs)

/-- The `owner` of a projectile: `None`, a faction string (as passed by
`PhysicsEngine.create_projectile`), or a unit object
(src/game/objects/projectile.py `_check_collisions` distinguishes the
string case with `isinstance(self.owner, str)`). -/
inductive POwner where
  | null
  | fac (s : String)
  | unitRef (u : GameUnit)

/-- Effects returned by `Projectile.update` / `_check_collisions`
(dictionaries with a `'type'` key in the source). -/
inductive Effect where
  | explosion (position : Vec3) (radius : ℝ) (damage : ℝ) (owner : POwner)
  | hit (position : Vec3) (unitId : ℕ)

/-- `Projectile` fields.  The attributes that `__init__` assigns only for
some projectile types (`has_gravity`, `bounce_factor`, `z_velocity`,
`explodes`, `explosion_radius`, `has_trail`, `portal_travels`) and the
never-assigned `penetrates` are `Option`s; `none` means the Python
attribute is absent, so `hasattr` is `isSome` and reading the value while
absent is an `AttributeError`.  The tracked `target_unit` object is
modelled by its id.  Rendering-only fields (`rotation`, trail colors) are
omitted. -/
structure Projectile where
  position : Vec3
  target_position : Option Vec3
  target_unit : Option ℕ
  speed : ℝ
  damage : ℝ
  owner : POwner
  max_lifetime : ℝ
  lifetime : ℝ
  projectile_type : String
  active : Bool
  direction : Vec3
  has_gravity : Option Bool
  bounce_factor : Option ℝ
  z_velocity : Option ℝ
  explodes : Option Bool
  explosion_radius : Option ℝ
  has_trail : Option Bool
  portal_travels : Option Bool
  penetrates : Option Bool

/-- `Projectile.__init__`.  `target_unit` is the tracked unit object at
construction time (used for the initial direction); its id is stored. -/
def initProjectile (position : Vec3) (target_position : Option Vec3)
    (target_unit : Option GameUnit) (speed : ℝ) (damage : ℝ)
    (owner : POwner) (lifetime : ℝ) (projectile_type : String) : Projectile :=
  let direction : Vec3 :=
    match target_position with
    | some tp =>
      let dx := tp.x - position.x
      let dy := tp.y - position.y
      let dz := tp.z - position.z
      let distance := Real.sqrt (dx * dx + dy * dy + dz * dz)
      if distance > 0 then ⟨dx / distance, dy / distance, dz / distance⟩
      else ⟨0, 0, 0⟩
    | none =>
      match target_unit with
      | some tu =>
        let dx := tu.position.x - position.x
        let dy := tu.position.y - position.y
        let dz : ℝ := 0
        let distance := Real.sqrt (dx * dx + dy * dy + dz * dz)
        if distance > 0 then ⟨dx / distance, dy / distance, dz / distance⟩
        else ⟨0, 0, 0⟩
      | none => ⟨0, 0, 0⟩
  let base : Projectile :=
    { position := position
      target_position := target_position
      target_unit := target_unit.map GameUnit.id
      speed := speed
      damage := damage
      owner := owner
      max_lifetime := lifetime
      lifetime := 0
      projectile_type := projectile_type
      active := true
      direction := direction
      has_gravity := none
      bounce_factor := none
      z_velocity := none
      explodes := none
      explosion_radius := none
      has_trail := none
      portal_travels := none
      penetrates := none }
  if projectile_type = "grenade" then
    { base with
      has_gravity := some true
      bounce_factor := some 0.3
      z_velocity := some 20
      explodes := some true
      explosion_radius := some 15 }
  else if projectile_type = "energy_bolt" then
    { base with has_trail := some true }
  else if projectile_type = "portal_arrow" then
    { base with portal_travels := some true }
  else
    { base with
      has_gravity := some false
      has_trail := some false
      explodes := some false }

/-- The faction resolved in `_check_collisions`: `"neutral"` when the
owner is `None`, the string itself when the owner is a faction string,
`owner.faction` when the owner is a unit. -/
def ownerFaction (o : POwner) : String :=
  match o with
  | .null => "neutral"
  | .fac s => s
  | .unitRef u => u.faction

/-- The attacker argument of the `unit.take_damage(self.damage, self.owner)`
call inside `_check_collisions`.  A faction-string owner makes
`take_damage` evaluate `attacker.is_melee_unit()` on a `str`, which is an
`AttributeError` (note: in Python the victim's health is decremented
before that fault; no verified claim depends on the post-fault state, so
the model stops at the fault). -/
def ownerAttacker (o : POwner) : Except PyFault (Option GameUnit) :=
  match o with
  | .null => .ok none
  | .fac _ => .error .attributeError
  | .unitRef u => .ok (some u)

/-- The `for unit in units_to_check` loop body of
`Projectile._check_collisions`: skip dead units, 2D circle test against
`collision_radius` (no unit in the repository defines `collision_radius`,
so the `getattr` default `1.0` always applies), damage on hit, deactivate
unless penetrating, extra explosion effect for explode-on-impact types,
`break` after the first hit unless penetrating. -/
def collideLoop (p : Projectile) (gs : GameState) (rnd : ℝ × ℝ) :
    List GameUnit → Except PyFault (Projectile × GameState × List Effect)
  | [] => .ok (p, gs, [])
  | u :: rest =>
    if ¬ u.is_alive then collideLoop p gs rnd rest
    else
      let dx := u.position.x - p.position.x
      let dy := u.position.y - p.position.y
      let distance := Real.sqrt (dx * dx + dy * dy)
      let collision_radius : ℝ := 1
      if distance < collision_radius then
        match ownerAttacker p.owner with
        | .error f => .error f
        | .ok atk =>
          let u' := takeDamage u p.damage atk rnd
          let gs' := gsReplace gs u'
          let effects := [Effect.hit p.position u.id]
          let p' := if p.penetrates = some true then p else { p with active := false }
          match (if p.explodes = some true then
                  match p.explosion_radius with
                  | none => Except.error PyFault.attributeError
                  | some r =>
                    Except.ok ({ p' with active := false },
                      effects ++ [Effect.explosion p.position r p.damage p.owner])
                 else Except.ok (p', effects)) with
          | .error f => .error f
          | .ok (p'', effects') =>
            if p.penetrates = some true then
              match collideLoop p'' gs' rnd rest with
              | .error f => .error f
              | .ok (p3, gs3, effects3) => .ok (p3, gs3, effects' ++ effects3)
            else
              .ok (p'', gs', effects')
      else
        collideLoop p gs rnd rest

/-- `Projectile._check_collisions(game_state)`: choose the opposing
faction's unit list (player projectiles check enemy units, enemy
projectiles check player units, anything else checks no units at all)
and run the collision loop over it. -/
def checkCollisions (p : Projectile) (gs : GameState) (rnd : ℝ × ℝ) :
    Except PyFault (Projectile × GameState × List Effect) :=
  let owner_faction := ownerFaction p.owner
  let units_to_check :=
    if owner_faction = "player" then gs.enemy_units
    else if owner_faction = "enemy" then gs.player_units
    else []
  collideLoop p gs rnd units_to_check

/-- `Projectile.update(dt, game_state)`: lifetime bookkeeping, homing
direction blend, gravity/ground handling for gravity projectiles
(explode or bounce on `new_z <= 0`), straight-line motion, then the
collision check.  Returns the effects created this frame. -/
def projectileUpdate (p : Projectile) (dt : ℝ) (gs : GameState)
    (rnd : ℝ × ℝ) : Except PyFault (Projectile × GameState × List Effect) :=
  let lifetime' := p.lifetime + dt
  if lifetime' ≥ p.max_lifetime then
    .ok ({ p with lifetime := lifetime', active := false }, gs, [])
  else
    let p := { p with lifetime := lifetime' }
    -- homing: `if self.target_unit and self.target_unit.is_alive():`
    -- (the tracked object is dereferenced through the world by its id)
    let p :=
      match p.target_unit with
      | some tid =>
        match resolveTarget (some (.byRef tid)) gs with
        | some tu =>
          if tu.is_alive then
            let dx := tu.position.x - p.position.x
            let dy := tu.position.y - p.position.y
            let dz : ℝ := 0
            let distance := Real.sqrt (dx * dx + dy * dy + dz * dz)
            if distance > 0 then
              let d : Vec3 :=
                ⟨0.8 * p.direction.x + 0.2 * dx / distance,
                 0.8 * p.direction.y + 0.2 * dy / distance,
                 0.8 * p.direction.z + 0.2 * dz / distance⟩
              let dir_length := Real.sqrt (d.x ^ 2 + d.y ^ 2 + d.z ^ 2)
              if dir_length > 0 then
                { p with direction := ⟨d.x / dir_length, d.y / dir_length, d.z / dir_length⟩ }
              else { p with direction := d }
            else p
          else p
        | none => p
      | none => p
    -- gravity block
    match (if p.has_gravity = some true then
            match p.z_velocity with
            | none => Except.error PyFault.attributeError
            | some zv =>
              let zv' := zv - 9.8 * dt
              let new_z := p.position.z + zv' * dt
              if new_z ≤ 0 then
                if p.explodes = some true then
                  match p.explosion_radius with
                  | none => Except.error PyFault.attributeError
                  | some r =>
                    -- early return: explode on ground contact
                    Except.ok (Sum.inr ({ p with z_velocity := some zv', active := false },
                      [Effect.explosion ⟨p.position.x, p.position.y, 0⟩ r p.damage p.owner]))
                else if (p.bounce_factor).isSome then
                  let bf := (p.bounce_factor).getD 0
                  Except.ok (Sum.inl { p with
                    z_velocity := some (-zv' * bf)
                    position := ⟨p.position.x, p.position.y, 0⟩ })
                else
                  Except.ok (Sum.inl { p with
                    z_velocity := some zv'
                    position := ⟨p.position.x, p.position.y, new_z⟩ })
              else
                Except.ok (Sum.inl { p with
                  z_velocity := some zv'
                  position := ⟨p.position.x, p.position.y, new_z⟩ })
           else Except.ok (Sum.inl p)) with
    | .error f => .error f
    | .ok (Sum.inr (p, effects)) => .ok (p, gs, effects)
    | .ok (Sum.inl p) =>
      -- straight-line motion
      let p := { p with position :=
        ⟨p.position.x + p.direction.x * p.speed * dt,
         p.position.y + p.direction.y * p.speed * dt,
         p.position.z + p.direction.z * p.speed * dt⟩ }
      checkCollisions p gs rnd

/-- `PhysicsEngine.fire_projectile`: per-type speed and lifetime presets,
then `Projectile.__init__`. -/
def fireProjectile (start_position : Vec3) (target_position : Option Vec3)
    (target_unit : Option GameUnit) (projectile_type : String)
    (owner : POwner) (damage : ℝ) : Projectile :=
  let sl : ℝ × ℝ :=
    if projectile_type = "arrow" then (100, 5)
    else if projectile_type = "grenade" then (60, 10)
    else if projectile_type = "portal_arrow" then (120, 5)
    else if projectile_type = "energy_bolt" then (150, 3)
    else (100, 5)
  initProjectile start_position target_position target_unit sl.1 damage
    owner sl.2 projectile_type

/-- `Explosion` fields (src/game/objects/projectile.py).  `damaged_units`
is the per-explosion set of already-damaged units, stored as ids. -/
structure ExplosionE where
  position : Vec3
  radius : ℝ
  damage : ℝ
  owner : Option GameUnit
  max_lifetime : ℝ
  lifetime : ℝ
  damage_falloff : Bool
  active : Bool
  current_radius : ℝ
  max_radius_time : ℝ
  damaged_units : List ℕ

/-- `Explosion.__init__`. -/
def initExplosion (position : Vec3) (radius : ℝ) (damage : ℝ)
    (owner : Option GameUnit) (lifetime : ℝ) (damage_falloff : Bool) :
    ExplosionE where
  position := position
  radius := radius
  damage := damage
  owner := owner
  max_lifetime := lifetime
  lifetime := 0
  damage_falloff := damage_falloff
  active := true
  current_radius := 0
  max_radius_time := lifetime * 0.3
  damaged_units := []

/-- The `for unit in units_to_check` loop of `Explosion._apply_damage`:
skip dead or already-damaged units, 2D distance test against `radius`,
linear falloff damage if `damage_falloff`, `take_damage` with the
explosion's owner as attacker, record the unit as damaged. -/
def explosionDamageLoop (e : ExplosionE) (gs : GameState) (rnd : ℝ × ℝ) :
    List GameUnit → ExplosionE × GameState
  | [] => (e, gs)
  | u :: rest =>
    if ¬ u.is_alive ∨ u.id ∈ e.damaged_units then
      explosionDamageLoop e gs rnd rest
    else
      let dx := u.position.x - e.position.x
      let dy := u.position.y - e.position.y
      let distance := Real.sqrt (dx * dx + dy * dy)
      if distance ≤ e.radius then
        let actual_damage :=
          if e.damage_falloff then e.damage * (1 - distance / e.radius)
          else e.damage
        let u' := takeDamage u actual_damage e.owner rnd
        explosionDamageLoop { e with damaged_units := u.id :: e.damaged_units }
          (gsReplace gs u') rnd rest
      else
        explosionDamageLoop e gs rnd rest

/-- `Explosion._apply_damage(game_state)`: player explosions damage enemy
units, enemy explosions damage player units, neutral explosions damage
both. -/
def applyExplosionDamage (e : ExplosionE) (gs : GameState) (rnd : ℝ × ℝ) :
    ExplosionE × GameState :=
  let owner_faction :=
    match e.owner with
    | none => "neutral"
    | some u => u.faction
  let units_to_check :=
    if owner_faction = "player" then gs.enemy_units
    else if owner_faction = "enemy" then gs.player_units
    else gs.player_units ++ gs.enemy_units
  explosionDamageLoop e gs rnd units_to_check

/-- `Explosion.update(dt, game_state)`: advance `lifetime`, expire when
`lifetime >= max_lifetime`, animate `current_radius`, and call
`_apply_damage` when `self.lifetime < dt` — the source's "first frame"
test, evaluated after `self.lifetime += dt`. -/
def explosionUpdate (e : ExplosionE) (dt : ℝ) (gs : GameState)
    (rnd : ℝ × ℝ) : ExplosionE × GameState :=
  let lifetime' := e.lifetime + dt
  if lifetime' ≥ e.max_lifetime then
    ({ e with lifetime := lifetime', active := false }, gs)
  else
    let e := { e with lifetime := lifetime' }
    let e :=
      if lifetime' < e.max_radius_time then
        { e with current_radius := e.radius * (lifetime' / e.max_radius_time) }
      else
        { e with current_radius := e.radius }
    if lifetime' < dt then applyExplosionDamage e gs rnd
    else (e, gs)

end

/-- `PhysicsEngine.physics_step = 1/60`, the fixed physics timestep.
Time values of the accumulator are modelled as exact rationals. -/
def PHYSICS_STEP : ℚ := 1 / 60

/-- The `while self.accumulated_time >= self.physics_step` loop of
`PhysicsEngine.update`: each iteration runs one fixed physics step
(`_update_projectiles`, `_update_explosions`, `_update_debris`,
abstracted as a step function `f` on the whole physics state `σ`) and
subtracts `physics_step` from the accumulator. -/
def engineRun {σ : Type} (f : σ → σ) (acc : ℚ) (s : σ) : ℚ × σ :=
  if h : PHYSICS_STEP ≤ acc then
    engineRun f (acc - PHYSICS_STEP) (f s)
  else
    (acc, s)
termination_by (⌊acc * 60⌋).toNat
decreasing_by
  have h1 : (1 : ℚ) ≤ acc * 60 := by
    have h' : (1 : ℚ) / 60 ≤ acc := by simpa [PHYSICS_STEP] using h
    nlinarith [h']
  have h2 : ⌊(acc - PHYSICS_STEP) * 60⌋ = ⌊acc * 60⌋ - 1 := by
    have : (acc - PHYSICS_STEP) * 60 = acc * 60 - 1 := by
      simp [PHYSICS_STEP]; ring
    rw [this, ← Int.floor_sub_int]
    norm_num
  have h3 : (1 : ℤ) ≤ ⌊acc * 60⌋ := by
    exact_mod_cast Int.le_floor.mpr (by exact_mod_cast h1)
  omega

/-- `PhysicsEngine.update(dt, game_state)`: accumulate `dt`, then drain
the accumulator in whole fixed steps.  The engine state is the pair
(accumulated_time, physics state). -/
def engineUpdate {σ : Type} (f : σ → σ) (dt : ℚ) (st : ℚ × σ) : ℚ × σ :=
  engineRun f (st.1 + dt) st.2

/-- A sequence of frames: `update(dt)` called once per element of `dts`. -/
def engineUpdates {σ : Type} (f : σ → σ) (dts : List ℚ) (st : ℚ × σ) : ℚ × σ :=
  dts.foldl (fun s d => engineUpdate f d s) st

noncomputable section

/-- A 2D point, as used by the squad formation code
(src/game/units/squad.py works with `[x, y]` lists). -/
structure Vec2 where
  x : ℝ
  y : ℝ

/-- `FormationType` enumeration of squad.py. -/
inductive FormationType where
  | LINE
  | WEDGE
  | COLUMN
  | SCATTERED
  | CIRCLE
deriving DecidableEq

/-- The squad's travel direction used by `_form_line` / `_form_wedge` /
`_form_column`: the normalized vector from the squad position to the
target, or `[0, 1]` when the two coincide. -/
def formDirection (squadPos target : Vec2) : Vec2 :=
  let dx := target.x - squadPos.x
  let dy := target.y - squadPos.y
  let length := Real.sqrt (dx ^ 2 + dy ^ 2)
  if length > 0 then ⟨dx / length, dy / length⟩ else ⟨0, 1⟩

/-- `Squad._form_line`: the formation position of the unit at index `i`
(of `n` units), for spacing `s` and `formation_width` `w`.  Rows of up to
`w` units, each row centered, offset along the perpendicular axis. -/
def formLine (s : ℝ) (w : ℕ) (squadPos target : Vec2) (n i : ℕ) : Vec2 :=
  let units_per_row := if n ≤ w then n else w
  let rows := if n ≤ w then 1 else (n + units_per_row - 1) / units_per_row
  let total_width := ((units_per_row : ℝ) - 1) * s
  let total_height := ((rows : ℝ) - 1) * s
  let direction := formDirection squadPos target
  let perp : Vec2 := ⟨-direction.y, direction.x⟩
  let row := i / units_per_row
  let col := i % units_per_row
  let units_in_this_row := min units_per_row (n - row * units_per_row)
  let row_width := ((units_in_this_row : ℝ) - 1) * s
  let offset := if units_per_row > units_in_this_row then (total_width - row_width) / 2 else 0
  let rel_x := ((col : ℝ) * s - row_width / 2) + offset
  let rel_y := (row : ℝ) * s - total_height / 2
  ⟨target.x + rel_x * perp.x + rel_y * direction.x,
   target.y + rel_x * perp.y + rel_y * direction.y⟩

/-- `Squad._form_wedge`: leader at the apex, the others alternating
left/right, each pair one row further back and out (factor `0.8`). -/
def formWedge (s : ℝ) (squadPos target : Vec2) (i : ℕ) : Vec2 :=
  let direction := formDirection squadPos target
  let perp : Vec2 := ⟨-direction.y, direction.x⟩
  let relp : ℝ × ℝ :=
    if i = 0 then (0, 0)
    else
      let side : ℝ := if i % 2 = 1 then 1 else -1
      let row := (i - 1) / 2 + 1
      (side * (row : ℝ) * s * 0.8, (row : ℝ) * s * 0.8)
  ⟨target.x + relp.1 * perp.x + relp.2 * direction.x,
   target.y + relp.1 * perp.y + relp.2 * direction.y⟩

/-- `Squad._form_column`: two-wide columns stacked along the travel axis
(`units_per_col = 2`). -/
def formColumn (s : ℝ) (squadPos target : Vec2) (n i : ℕ) : Vec2 :=
  let direction := formDirection squadPos target
  let units_per_col : ℕ := 2
  let total_length : ℝ :=
    ((n / units_per_col : ℕ) : ℝ) * s + (if n % units_per_col > 0 then s else 0)
  let perp : Vec2 := ⟨-direction.y, direction.x⟩
  let col := i / units_per_col
  let row := i % units_per_col
  let rel_x := if units_per_col > 1 then ((row : ℝ) - 0.5) * s else 0
  let rel_y := (col : ℝ) * s - total_length / 2
  ⟨target.x + rel_x * perp.x + rel_y * direction.x,
   target.y + rel_x * perp.y + rel_y * direction.y⟩

/-- `Squad._form_scattered`: deterministic angle `2*pi*(i/n)`, random
radius fraction `np.random.random()` supplied by the oracle `rnd`. -/
def formScattered (s : ℝ) (target : Vec2) (n i : ℕ) (rnd : ℕ → ℝ) : Vec2 :=
  let radius := s * Real.sqrt (n : ℝ) * 0.5
  let angle := 2 * Real.pi * ((i : ℝ) / (n : ℝ))
  let distance := radius * Real.sqrt (rnd i)
  ⟨target.x + distance * Real.cos angle,
   target.y + distance * Real.sin angle⟩

/-- `Squad._form_circle`: units evenly spaced on a ring of radius
`formation_spacing * 2` around the target. -/
def formCircle (s : ℝ) (target : Vec2) (n i : ℕ) : Vec2 :=
  let radius := s * 2
  let angle := 2 * Real.pi * ((i : ℝ) / (n : ℝ))
  ⟨target.x + radius * Real.cos angle,
   target.y + radius * Real.sin angle⟩

/-- `Squad._update_formation` dispatch: the formation position assigned
to the unit at index `i` of `n`, for the chosen formation type, with the
squad's `formation_spacing` `s` and `formation_width` `w`. -/
def formationPosition (ft : FormationType) (s : ℝ) (w : ℕ)
    (squadPos target : Vec2) (n i : ℕ) (rnd : ℕ → ℝ) : Vec2 :=
  match ft with
  | .LINE => formLine s w squadPos target n i
  | .WEDGE => formWedge s squadPos target i
  | .COLUMN => formColumn s squadPos target n i
  | .SCATTERED => formScattered s target n i rnd
  | .CIRCLE => formCircle s target n i

end

/-- The Python classes whose `take_damage` definitions exist in the
repository.  `portalArcher`, `techGrenadier` and `gromflomite` do not
override `take_damage`, so a call on them dispatches to `Unit`'s. -/
inductive UnitClass where
  | base
  | dimensioneer
  | portalArcher
  | techGrenadier
  | gromflomite
deriving DecidableEq

/-- The maximum number of positional arguments (after `self`) accepted by
the `take_damage` method each class dispatches to, read off the `def`
signatures: `Unit.take_damage(self, amount, attacker=None)` accepts up to
two; `Dimensioneer.take_damage(self, damage)` accepts exactly one. -/
def takeDamageMaxArgs (c : UnitClass) : ℕ :=
  match c with
  | .dimensioneer => 1
  | _ => 2

/-- The number of required positional arguments of the dispatched
`take_damage` (both signatures require `amount`/`damage`). -/
def takeDamageMinArgs (c : UnitClass) : ℕ :=
  match c with
  | _ => 1

/-- Whether a call `victim.take_damage(...)` with `n` positional
arguments binds without raising `TypeError`. -/
def takeDamageCallOk (c : UnitClass) (n : ℕ) : Bool :=
  decide (takeDamageMinArgs c ≤ n ∧ n ≤ takeDamageMaxArgs c)

noncomputable section

/-- A single call in a damage/heal call sequence on a unit:
`take_damage(amount, attacker)` (with its random oracle) or
`heal(amount)`. -/
inductive DmgOp where
  | dmg (amount : ℝ) (attacker : Option GameUnit) (rnd : ℝ × ℝ)
  | healOp (amount : ℝ)

/-- Apply one call of a damage/heal sequence. -/
def applyOp (u : GameUnit) (op : DmgOp) : GameUnit :=
  match op with
  | .dmg a atk rnd => takeDamage u a atk rnd
  | .healOp a => heal u a

/-- Apply a whole sequence of `take_damage`/`heal` calls, first to last. -/
def applyOps (u : GameUnit) (ops : List DmgOp) : GameUnit :=
  ops.foldl applyOp u

/-- The `amount` argument of a call. -/
def opAmount (op : DmgOp) : ℝ :=
  match op with
  | .dmg a _ _ => a
  | .healOp a => a

/-- Whether a call is a `heal`. -/
def isHeal (op : DmgOp) : Prop :=
  match op with
  | .dmg _ _ _ => False
  | .healOp _ => True

/-- `Projectile.update` called `n` times in a row with the same `dt`
(one call per frame), threading the world through. -/
def projSteps (dt : ℝ) (p : Projectile) (gs : GameState) (rnd : ℝ × ℝ) :
    ℕ → Except PyFault (Projectile × GameState × List Effect)
  | 0 => .ok (p, gs, [])
  | n + 1 =>
    match projSteps dt p gs rnd n with
    | .error f => .error f
    | .ok (p', gs', _) => projectileUpdate p' dt gs' rnd

end

/-! ## Theorems -/

/-- `take_damage` only writes `health` in its final clamp: the new health
is `0` when `health - amount <= 0` and `health - amount` otherwise,
whatever the attacker. -/
theorem takeDamage_health (u : GameUnit) (a : ℝ) (atk : Option GameUnit)
    (rnd : ℝ × ℝ) :
    (takeDamage u a atk rnd).health =
      if u.health - a ≤ 0 then 0 else u.health - a := by
  cases atk <;> simp only [takeDamage] <;> split_ifs <;> rfl

/-- `take_damage` sets `state` to `"dead"` exactly when the decremented
health is `<= 0`, and leaves it unchanged otherwise. -/
theorem takeDamage_state (u : GameUnit) (a : ℝ) (atk : Option GameUnit)
    (rnd : ℝ × ℝ) :
    (takeDamage u a atk rnd).state =
      if u.health - a ≤ 0 then UState.dead else u.state := by
  cases atk <;> simp only [takeDamage] <;> split_ifs <;> rfl

/-- `take_damage` never touches `max_health`. -/
theorem takeDamage_max_health (u : GameUnit) (a : ℝ) (atk : Option GameUnit)
    (rnd : ℝ × ℝ) :
    (takeDamage u a atk rnd).max_health = u.max_health := by
  cases atk <;> simp only [takeDamage] <;> split_ifs <;> rfl

/-- `heal` only writes `health`. -/
theorem heal_fields (u : GameUnit) (a : ℝ) :
    (heal u a).health = min (u.health + a) u.max_health ∧
    (heal u a).state = u.state ∧ (heal u a).max_health = u.max_health := by
  unfold heal
  exact ⟨rfl, rfl, rfl⟩

/-- C7 (amended): for every unit and position, `move_to(pos)` clears the
attack target, sets state to moving and path to `[pos]`; `set_destination(pos)`
sets state to moving and path to `[pos]` but leaves the attack target
exactly as it was (the original claim that it, too, clears the target is
false — see the counterexample). -/
theorem moveTo_setDestination_spec (u : GameUnit) (pos : Vec3) :
    (moveTo u pos).state = .moving ∧ (moveTo u pos).target = none ∧
    (moveTo u pos).path = [pos] ∧
    (setDestination u pos).state = .moving ∧
    (setDestination u pos).path = [pos] ∧
    (setDestination u pos).target = u.target := by
  unfold moveTo setDestination
  exact ⟨rfl, rfl, rfl, rfl, rfl, rfl⟩

/-- C7 counterexample: a unit holding attack target id 7 still holds it
after `set_destination`, contradicting the claim that `set_destination`
leaves the unit with `target = None`. -/
theorem setDestination_keeps_target :
    (setDestination
        { initUnit 0 "soldier" ⟨0, 0, 0⟩ "player" with target := some (.byId 7) }
        ⟨1, 2, 0⟩).target ≠ none := by
  unfold setDestination
  simp

/-- C3: `Dimensioneer.take_damage(self, damage)` accepts only one
positional argument after `self`, while every call site of
attack resolution (`target_unit.take_damage(self.damage, self)` in
`Unit._update_attack`) and projectile collision
(`unit.take_damage(self.damage, self.owner)` in
`Projectile._check_collisions`) passes two.  On a `Dimensioneer` victim
that call raises `TypeError`; on every other unit class it binds fine. -/
theorem dimensioneer_take_damage_two_args_faults :
    takeDamageCallOk .dimensioneer 2 = false ∧
    takeDamageCallOk .base 2 = true ∧
    takeDamageCallOk .portalArcher 2 = true ∧
    takeDamageCallOk .techGrenadier 2 = true ∧
    takeDamageCallOk .gromflomite 2 = true := by
  decide

/-- C1: `Explosion.update` increments `self.lifetime` by `dt` *before*
testing `if self.lifetime < dt`, so for any positive `dt` and any
nonnegative stored lifetime the guard is false on every tick:
`_apply_damage` is never called, the world is returned unchanged and the
`damaged_units` set never grows.  The explosion's damage is applied zero
times, not exactly once on the first update tick. -/
theorem explosion_update_never_damages (e : ExplosionE) (dt : ℝ)
    (gs : GameState) (rnd : ℝ × ℝ) (hdt : 0 < dt) (hlt : 0 ≤ e.lifetime) :
    (explosionUpdate e dt gs rnd).2 = gs ∧
    (explosionUpdate e dt gs rnd).1.damaged_units = e.damaged_units := by
  have hguard : ¬ (e.lifetime + dt < dt) := by linarith
  simp only [explosionUpdate]
  split_ifs <;> simp_all

/-- C1 witness: a fresh radius-10 damage-30 explosion centred at the
origin, updated with the engine's own fixed `dt = 1/60`, damages nobody —
not even the enemy unit standing at distance 5 inside the blast radius. -/
theorem explosion_update_never_damages_witness :
    (explosionUpdate (initExplosion ⟨0, 0, 0⟩ 10 30 none 0.5 true) (1 / 60)
        ⟨[], [initUnit 1 "gromflomite" ⟨5, 0, 0⟩ "enemy"]⟩ (1, 0)).2 =
      ⟨[], [initUnit 1 "gromflomite" ⟨5, 0, 0⟩ "enemy"]⟩ ∧
    (explosionUpdate (initExplosion ⟨0, 0, 0⟩ 10 30 none 0.5 true) (1 / 60)
        ⟨[], [initUnit 1 "gromflomite" ⟨5, 0, 0⟩ "enemy"]⟩ (1, 0)).1.damaged_units =
      (initExplosion ⟨0, 0, 0⟩ 10 30 none 0.5 true).damaged_units := by
  exact explosion_update_never_damages _ _ _ _ (by norm_num)
    (by norm_num [initExplosion])

/-- Closed form of the accumulator-draining loop: starting from a
nonnegative accumulator `acc`, the loop runs exactly `⌊acc * 60⌋` fixed
steps and leaves `acc - ⌊acc * 60⌋ / 60` in the accumulator. -/
theorem engineRun_closed {σ : Type} (f : σ → σ) (acc : ℚ) (s : σ)
    (hacc : 0 ≤ acc) :
    engineRun f acc s =
      (acc - (⌊acc * 60⌋ : ℚ) / 60, f^[(⌊acc * 60⌋).toNat] s) := by
  generalize hN : (⌊acc * 60⌋).toNat = N
  induction N generalizing acc s with
  | zero =>
    have hlt : acc < PHYSICS_STEP := by
      by_contra hge
      push_neg at hge
      have h1 : (1 : ℚ) ≤ acc * 60 := by
        have : (1 : ℚ) / 60 ≤ acc := by simpa [PHYSICS_STEP] using hge
        nlinarith [this]
      have : (1 : ℤ) ≤ ⌊acc * 60⌋ := Int.le_floor.mpr (by exact_mod_cast h1)
      omega
    have hfl : ⌊acc * 60⌋ = 0 := by
      rw [Int.floor_eq_zero_iff]
      constructor
      · positivity
      · have : acc < 1 / 60 := by simpa [PHYSICS_STEP] using hlt
        nlinarith [this]
    rw [engineRun]
    simp [not_le.mpr hlt, hfl]
  | succ n ih =>
    have hge : PHYSICS_STEP ≤ acc := by
      by_contra hlt
      push_neg at hlt
      have hfl : ⌊acc * 60⌋ = 0 := by
        rw [Int.floor_eq_zero_iff]
        refine ⟨by positivity, ?_⟩
        have : acc < 1 / 60 := by simpa [PHYSICS_STEP] using hlt
        nlinarith [this]
      omega
    have hfl1 : ⌊(acc - PHYSICS_STEP) * 60⌋ = ⌊acc * 60⌋ - 1 := by
      have harith : (acc - PHYSICS_STEP) * 60 = acc * 60 - 1 := by
        simp [PHYSICS_STEP]; ring
      rw [harith, ← Int.floor_sub_int]
      norm_num
    have hacc' : 0 ≤ acc - PHYSICS_STEP := by linarith
    have hN' : (⌊(acc - PHYSICS_STEP) * 60⌋).toNat = n := by
      rw [hfl1]; omega
    rw [engineRun]
    simp only [hge, dif_pos]
    rw [ih (acc - PHYSICS_STEP) (f s) hacc' hN']
    simp only [Prod.mk.injEq]
    constructor
    · rw [hfl1]
      push_cast
      simp only [PHYSICS_STEP]
      ring
    · exact (Function.iterate_succ_apply f n s).symm

/-- Folding frames over the engine keeps the accumulator in
`[0, physics_step)` and drains `⌊total * 60⌋` steps in total, where
`total` is the accumulated time seen so far. -/
theorem engineUpdates_closed {σ : Type} (f : σ → σ) (dts : List ℚ)
    (acc : ℚ) (s : σ) (h0 : 0 ≤ acc) (h1 : acc < PHYSICS_STEP)
    (hdts : ∀ d ∈ dts, 0 ≤ d) :
    engineUpdates f dts (acc, s) =
      ((acc + dts.sum) - (⌊(acc + dts.sum) * 60⌋ : ℚ) / 60,
       f^[(⌊(acc + dts.sum) * 60⌋).toNat] s) := by
  induction dts generalizing acc s with
  | nil =>
    have hfl : ⌊acc * 60⌋ = 0 := by
      rw [Int.floor_eq_zero_iff]
      refine ⟨by positivity, ?_⟩
      have : acc < 1 / 60 := by simpa [PHYSICS_STEP] using h1
      nlinarith [this]
    simp [engineUpdates, hfl]
  | cons d rest ih =>
    have hd : 0 ≤ d := hdts d (List.mem_cons_self d rest)
    have hrest : ∀ x ∈ rest, 0 ≤ x := fun x hx => hdts x (List.mem_cons_of_mem d hx)
    have hrestsum : 0 ≤ rest.sum := List.sum_nonneg hrest
    have hstep : engineUpdates f (d :: rest) (acc, s) =
        engineUpdates f rest (engineRun f (acc + d) s) := by
      simp [engineUpdates, engineUpdate]
    set n₁ : ℤ := ⌊(acc + d) * 60⌋ with hn₁
    have had : 0 ≤ acc + d := by linarith
    have hrun := engineRun_closed f (acc + d) s had
    have hn₁0 : 0 ≤ n₁ := Int.floor_nonneg.mpr (by positivity)
    have ha1lo : 0 ≤ (acc + d) - (n₁ : ℚ) / 60 := by
      have := Int.floor_le ((acc + d) * 60)
      rw [← hn₁] at this
      nlinarith [this]
    have ha1hi : (acc + d) - (n₁ : ℚ) / 60 < PHYSICS_STEP := by
      have := Int.lt_floor_add_one ((acc + d) * 60)
      rw [← hn₁] at this
      simp only [PHYSICS_STEP]
      nlinarith [this]
    rw [hstep, hrun, ih _ _ ha1lo ha1hi hrest]
    simp only [List.sum_cons, Prod.mk.injEq]
    have hassoc : acc + (d + rest.sum) = acc + d + rest.sum := by ring
    rw [hassoc]
    have hTeq : ((acc + d) - (n₁ : ℚ) / 60 + rest.sum) * 60 =
        (acc + d + rest.sum) * 60 - (n₁ : ℤ) := by
      push_cast
      ring
    have hfl2 : ⌊((acc + d) - (n₁ : ℚ) / 60 + rest.sum) * 60⌋ =
        ⌊(acc + d + rest.sum) * 60⌋ - n₁ := by
      rw [hTeq, Int.floor_sub_int]
    have hT0 : (0 : ℤ) ≤ ⌊(acc + d + rest.sum) * 60⌋ - n₁ := by
      rw [← hfl2]
      exact Int.floor_nonneg.mpr (by positivity)
    constructor
    · rw [hfl2]
      push_cast
      ring
    · rw [hfl2]
      rw [← Function.iterate_add_apply]
      congr 1
      omega

/-- C8: the physics engine consumes accumulated time only in whole fixed
1/60 s steps: two frame sequences whose `dt`s are nonnegative and sum to
the same total leave the engine in exactly the same state — the same
number of executed fixed steps (hence identical projectile positions,
since each step applies the same deterministic step function `f`) and the
same accumulator remainder. -/
theorem physics_fixed_step_invariance {σ : Type} (f : σ → σ) (s0 : σ)
    (dts₁ dts₂ : List ℚ) (h₁ : ∀ d ∈ dts₁, 0 ≤ d) (h₂ : ∀ d ∈ dts₂, 0 ≤ d)
    (hsum : dts₁.sum = dts₂.sum) :
    engineUpdates f dts₁ (0, s0) = engineUpdates f dts₂ (0, s0) := by
  rw [engineUpdates_closed f dts₁ 0 s0 le_rfl (by norm_num [PHYSICS_STEP]) h₁,
    engineUpdates_closed f dts₂ 0 s0 le_rfl (by norm_num [PHYSICS_STEP]) h₂,
    hsum]

/-- C8 witness: three frames of 1/120, 1/120 and 1/60 seconds leave a
step-counting engine in the same state as a single 1/30 s frame. -/
theorem physics_fixed_step_invariance_witness :
    engineUpdates (fun n : ℕ => n + 1) [1 / 120, 1 / 120, 1 / 60] (0, 0) =
      engineUpdates (fun n : ℕ => n + 1) [1 / 30] (0, 0) := by
  exact physics_fixed_step_invariance _ _ _ _
    (by intro d hd; fin_cases hd <;> norm_num)
    (by intro d hd; fin_cases hd <;> norm_num)
    (by norm_num)

/-- Any sequence of `take_damage`/`heal` calls with nonnegative amounts
keeps `health` in `[0, max_health]` and keeps the implication
"health `= 0` implies state `"dead"`". -/
theorem applyOps_invariant (ops : List DmgOp) (u : GameUnit)
    (h0 : 0 ≤ u.health) (h1 : u.health ≤ u.max_health)
    (h2 : u.health = 0 → u.state = .dead) (hmax : 0 < u.max_health)
    (hamt : ∀ op ∈ ops, 0 ≤ opAmount op) :
    (0 ≤ (applyOps u ops).health ∧
     (applyOps u ops).health ≤ (applyOps u ops).max_health ∧
     ((applyOps u ops).health = 0 → (applyOps u ops).state = .dead)) ∧
    0 < (applyOps u ops).max_health := by
  induction ops generalizing u with
  | nil => exact ⟨⟨h0, h1, h2⟩, hmax⟩
  | cons op rest ih =>
    have hopamt : 0 ≤ opAmount op := hamt op (List.mem_cons_self op rest)
    have hrest : ∀ o ∈ rest, 0 ≤ opAmount o :=
      fun o ho => hamt o (List.mem_cons_of_mem op ho)
    have hstep : applyOps u (op :: rest) = applyOps (applyOp u op) rest := by
      simp [applyOps]
    rw [hstep]
    rcases op with ⟨a, atk, rnd⟩ | a
    · simp only [opAmount] at hopamt
      simp only [applyOp]
      apply ih
      · rw [takeDamage_health]
        split_ifs with h
        · exact le_refl 0
        · push_neg at h
          linarith
      · rw [takeDamage_health, takeDamage_max_health]
        split_ifs with h
        · linarith
        · linarith
      · rw [takeDamage_health, takeDamage_state]
        split_ifs with h
        · intro _; rfl
        · intro he
          push_neg at h
          linarith
      · rw [takeDamage_max_health]
        exact hmax
      · exact hrest
    · simp only [opAmount] at hopamt
      simp only [applyOp]
      obtain ⟨hh, hs, hm⟩ := heal_fields u a
      apply ih
      · rw [hh]
        exact le_min (by linarith) (by linarith)
      · rw [hh, hm]
        exact min_le_right _ _
      · rw [hh, hs]
        intro he
        rcases min_cases (u.health + a) u.max_health with ⟨hmeq, _⟩ | ⟨hmeq, _⟩
        · apply h2
          rw [hmeq] at he
          linarith
        · exfalso
          rw [hmeq] at he
          linarith
      · rw [hm]
        exact hmax
      · exact hrest

/-- A sequence of pure `take_damage` calls (no `heal`) with nonnegative
amounts preserves the full equivalence "state `"dead"` iff health `0`". -/
theorem applyOps_dead_iff (ops : List DmgOp) (u : GameUnit)
    (hnd : ∀ op ∈ ops, ¬ isHeal op)
    (hamt : ∀ op ∈ ops, 0 ≤ opAmount op)
    (hiff : u.state = .dead ↔ u.health = 0) :
    (applyOps u ops).state = .dead ↔ (applyOps u ops).health = 0 := by
  induction ops generalizing u with
  | nil => exact hiff
  | cons op rest ih =>
    have hstep : applyOps u (op :: rest) = applyOps (applyOp u op) rest := by
      simp [applyOps]
    rw [hstep]
    rcases op with ⟨a, atk, rnd⟩ | a
    · have hopamt : 0 ≤ opAmount (.dmg a atk rnd) :=
        hamt _ (List.mem_cons_self _ rest)
      simp only [opAmount] at hopamt
      simp only [applyOp]
      apply ih
      · exact fun o ho => hnd o (List.mem_cons_of_mem _ ho)
      · exact fun o ho => hamt o (List.mem_cons_of_mem _ ho)
      · rw [takeDamage_state, takeDamage_health]
        split_ifs with h
        · simp
        · push_neg at h
          constructor
          · intro hs
            have := hiff.mp hs
            linarith
          · intro hh
            linarith
    · exact absurd trivial (hnd _ (List.mem_cons_self _ rest))

/-- C2 (amended): starting from any unit satisfying the invariant (for
instance a freshly constructed one), any sequence of `take_damage` and
`heal` calls with nonnegative amounts keeps `health` within
`[0, max_health]` and keeps "health `= 0` implies state `"dead"`"; the
full equivalence "state `"dead"` iff health `= 0`" is preserved when the
sequence contains no `heal` call.  (The original claim that the full
equivalence survives every sequence is false: `heal` on a dead unit
raises health above `0` while the state stays `"dead"` — see the
counterexample.) -/
theorem health_invariant (u : GameUnit) (ops : List DmgOp)
    (h0 : 0 ≤ u.health) (h1 : u.health ≤ u.max_health)
    (h2 : u.health = 0 → u.state = .dead) (hmax : 0 < u.max_health)
    (hiff : u.state = .dead ↔ u.health = 0)
    (hamt : ∀ op ∈ ops, 0 ≤ opAmount op) :
    (0 ≤ (applyOps u ops).health ∧
     (applyOps u ops).health ≤ (applyOps u ops).max_health ∧
     ((applyOps u ops).health = 0 → (applyOps u ops).state = .dead)) ∧
    ((∀ op ∈ ops, ¬ isHeal op) →
      ((applyOps u ops).state = .dead ↔ (applyOps u ops).health = 0)) := by
  refine ⟨(applyOps_invariant ops u h0 h1 h2 hmax hamt).1, ?_⟩
  intro hnd
  exact applyOps_dead_iff ops u hnd hamt hiff

/-- C2 witness: a fresh unit hit for 30 and then healed for 5 keeps its
health inside `[0, 100]`. -/
theorem health_invariant_witness :
    (0 ≤ (applyOps (initUnit 0 "soldier" ⟨0, 0, 0⟩ "player")
            [.dmg 30 none (1, 0), .healOp 5]).health ∧
     (applyOps (initUnit 0 "soldier" ⟨0, 0, 0⟩ "player")
            [.dmg 30 none (1, 0), .healOp 5]).health ≤
       (applyOps (initUnit 0 "soldier" ⟨0, 0, 0⟩ "player")
            [.dmg 30 none (1, 0), .healOp 5]).max_health ∧
     ((applyOps (initUnit 0 "soldier" ⟨0, 0, 0⟩ "player")
            [.dmg 30 none (1, 0), .healOp 5]).health = 0 →
       (applyOps (initUnit 0 "soldier" ⟨0, 0, 0⟩ "player")
            [.dmg 30 none (1, 0), .healOp 5]).state = .dead)) ∧
    ((∀ op ∈ [DmgOp.dmg 30 none (1, 0), DmgOp.healOp 5], ¬ isHeal op) →
      ((applyOps (initUnit 0 "soldier" ⟨0, 0, 0⟩ "player")
            [.dmg 30 none (1, 0), .healOp 5]).state = .dead ↔
       (applyOps (initUnit 0 "soldier" ⟨0, 0, 0⟩ "player")
            [.dmg 30 none (1, 0), .healOp 5]).health = 0)) := by
  apply health_invariant
  · norm_num [initUnit]
  · norm_num [initUnit]
  · intro h
    norm_num [initUnit] at h
  · norm_num [initUnit]
  · constructor
    · intro h
      simp [initUnit] at h
    · intro h
      norm_num [initUnit] at h
  · intro op hop
    fin_cases hop <;> norm_num [opAmount]

/-- C2 counterexample: kill a fresh unit with 100 damage, then heal it
for 20: health is `20` (not `0`) while the state is still `"dead"`, so
"state `"dead"` iff health `= 0`" is not preserved by every mutating
operation. -/
theorem heal_after_death_breaks_dead_iff :
    (applyOps (initUnit 0 "soldier" ⟨0, 0, 0⟩ "player")
        [.dmg 100 none (1, 0), .healOp 20]).state = .dead ∧
    (applyOps (initUnit 0 "soldier" ⟨0, 0, 0⟩ "player")
        [.dmg 100 none (1, 0), .healOp 20]).health = 20 := by
  norm_num [applyOps, applyOp, takeDamage, heal, initUnit]

/-- C5 (amended): `take_damage` on an already-dead unit (health `0`,
state `"dead"`) with a nonnegative amount leaves health at `0` (never
negative), leaves the state `"dead"` (no second death transition) and
leaves the path untouched.  (The original claim that the whole observable
state is unchanged is false: a melee attacker still overwrites the dead
unit's knockback velocity and timer — see the counterexample.) -/
theorem takeDamage_dead_core_noop (u : GameUnit) (a : ℝ)
    (atk : Option GameUnit) (rnd : ℝ × ℝ)
    (hdead : u.state = .dead) (hh : u.health = 0) (ha : 0 ≤ a) :
    (takeDamage u a atk rnd).health = 0 ∧
    (takeDamage u a atk rnd).state = .dead ∧
    (takeDamage u a atk rnd).path = u.path := by
  refine ⟨?_, ?_, ?_⟩
  · rw [takeDamage_health]
    split_ifs with h
    · rfl
    · exfalso
      push_neg at h
      linarith
  · rw [takeDamage_state]
    split_ifs with h
    · rfl
    · exact hdead
  · cases atk with
    | none => simp only [takeDamage] ; split_ifs <;> rfl
    | some b =>
      simp only [takeDamage]
      split_ifs with h1 h2 h3 <;> simp_all

/-- C5 witness: a dead victim at (1,0,0) hit for 10 by a live melee
attacker at the origin keeps health `0`, state `"dead"` and its (empty)
path. -/
theorem takeDamage_dead_core_noop_witness :
    (takeDamage { initUnit 1 "victim" ⟨1, 0, 0⟩ "enemy" with
        state := .dead, health := 0 } 10
        (some (initUnit 0 "attacker" ⟨0, 0, 0⟩ "player")) (1, 0)).health = 0 ∧
    (takeDamage { initUnit 1 "victim" ⟨1, 0, 0⟩ "enemy" with
        state := .dead, health := 0 } 10
        (some (initUnit 0 "attacker" ⟨0, 0, 0⟩ "player")) (1, 0)).state = .dead ∧
    (takeDamage { initUnit 1 "victim" ⟨1, 0, 0⟩ "enemy" with
        state := .dead, health := 0 } 10
        (some (initUnit 0 "attacker" ⟨0, 0, 0⟩ "player")) (1, 0)).path =
      ({ initUnit 1 "victim" ⟨1, 0, 0⟩ "enemy" with
        state := .dead, health := 0 } : GameUnit).path := by
  exact takeDamage_dead_core_noop _ _ _ _ (by rfl) (by rfl) (by norm_num)

/-- C5 counterexample: the same call is not a no-op — the dead victim's
knockback timer jumps from `0` to the victim's `knockback_recovery = 2`
(and its knockback velocity is overwritten too), because the knockback
block of `take_damage` runs even when the victim is already dead. -/
theorem takeDamage_dead_sets_knockback :
    (takeDamage { initUnit 1 "victim" ⟨1, 0, 0⟩ "enemy" with
        state := .dead, health := 0 } 10
        (some (initUnit 0 "attacker" ⟨0, 0, 0⟩ "player")) (1, 0)).knockback_timer = 2 ∧
    ({ initUnit 1 "victim" ⟨1, 0, 0⟩ "enemy" with
        state := .dead, health := 0 } : GameUnit).knockback_timer = 0 := by
  constructor
  · simp only [takeDamage]
    split_ifs with h1 h2 h3 <;> simp_all [initUnit, GameUnit.is_melee_unit]
  · rfl

/-- C6 (amended): for every `take_damage` with a melee attacker whose
horizontal (x,y) position differs from the victim's, the knockback
velocity is the *horizontal* unit vector from attacker to victim scaled
by `attacker.attack_range * 1.2 * max(0, attacker.knockback_power −
victim.knockback_resistance)`, with vertical component exactly `0` (not
the 3D normalization of `victim_pos − attacker_pos` the claim states —
see the counterexample), and the knockback timer is set to the victim's
`knockback_recovery`. -/
theorem melee_knockback_formula (v a : GameUnit) (amount : ℝ) (rnd : ℝ × ℝ)
    (hm : a.is_melee_unit)
    (hne : ¬ (v.position.x - a.position.x = 0 ∧ v.position.y - a.position.y = 0)) :
    (takeDamage v amount (some a) rnd).knockback_velocity =
      ⟨(v.position.x - a.position.x) /
          Real.sqrt ((v.position.x - a.position.x) * (v.position.x - a.position.x) +
            (v.position.y - a.position.y) * (v.position.y - a.position.y)) *
          (a.attack_range * 1.2 * max 0 (a.knockback_power - v.knockback_resistance)),
       (v.position.y - a.position.y) /
          Real.sqrt ((v.position.x - a.position.x) * (v.position.x - a.position.x) +
            (v.position.y - a.position.y) * (v.position.y - a.position.y)) *
          (a.attack_range * 1.2 * max 0 (a.knockback_power - v.knockback_resistance)),
       0⟩ ∧
    (takeDamage v amount (some a) rnd).knockback_timer = v.knockback_recovery := by
  simp only [takeDamage]
  split_ifs <;> simp_all

/-- C6 witness — the spec's concrete scenario: attacker at (0,0,0) with
`knockback_power = 2`, `attack_range = 1.5` hits a victim at (1,0,0) with
`knockback_resistance = 0.5`, `knockback_recovery = 1`; the knockback
velocity is `(2.7, 0, 0)` (direction `(1,0,0)`, magnitude
`1.5 * 1.2 * (2 - 0.5) = 2.7`) and the knockback timer becomes `1`. -/
theorem melee_knockback_formula_witness :
    (takeDamage
        { initUnit 1 "morty" ⟨1, 0, 0⟩ "enemy" with
            knockback_resistance := 0.5, knockback_recovery := 1 } 10
        (some { initUnit 0 "rick" ⟨0, 0, 0⟩ "player" with
            knockback_power := 2, attack_range := 1.5 }) (1, 0)).knockback_velocity =
      ⟨2.7, 0, 0⟩ ∧
    (takeDamage
        { initUnit 1 "morty" ⟨1, 0, 0⟩ "enemy" with
            knockback_resistance := 0.5, knockback_recovery := 1 } 10
        (some { initUnit 0 "rick" ⟨0, 0, 0⟩ "player" with
            knockback_power := 2, attack_range := 1.5 }) (1, 0)).knockback_timer = 1 := by
  have H := melee_knockback_formula
      { initUnit 1 "morty" ⟨1, 0, 0⟩ "enemy" with
          knockback_resistance := 0.5, knockback_recovery := 1 }
      { initUnit 0 "rick" ⟨0, 0, 0⟩ "player" with
          knockback_power := 2, attack_range := 1.5 }
      10 (1, 0)
      (by constructor <;> norm_num [initUnit])
      (by norm_num [initUnit])
  refine ⟨?_, ?_⟩
  · rw [H.1]
    norm_num [initUnit, Real.sqrt_one, Vec3.mk.injEq, max_def]
  · rw [H.2]

/-- C6 counterexample: with the attacker at the origin
(`attack_range = 2`, `knockback_power = 1`) and the victim at (3,4,12)
(`knockback_resistance = 0`), the claim predicts velocity
`2.4 • normalize(3,4,12) = (36/65, 48/65, 144/65)`; the code instead
normalizes only the horizontal components and always sets the vertical
knockback component to `0`, so the produced velocity differs. -/
theorem knockback_not_3d_normalized :
    (takeDamage (initUnit 1 "morty" ⟨3, 4, 12⟩ "enemy") 10
        (some { initUnit 0 "rick" ⟨0, 0, 0⟩ "player" with
            knockback_power := 1, attack_range := 2 }) (1, 0)).knockback_velocity ≠
      ⟨36 / 65, 48 / 65, 144 / 65⟩ := by
  have H := melee_knockback_formula
      (initUnit 1 "morty" ⟨3, 4, 12⟩ "enemy")
      { initUnit 0 "rick" ⟨0, 0, 0⟩ "player" with
          knockback_power := 1, attack_range := 2 }
      10 (1, 0)
      (by constructor <;> norm_num [initUnit])
      (by norm_num [initUnit])
  intro heq
  rw [H.1] at heq
  have hz := congrArg Vec3.z heq
  norm_num at hz

/-- C4: the attack update faults instead of accumulating the attack
timer.  For any attacking unit whose `attack_timer` attribute is absent —
which is every unit as constructed, since no `__init__` in the repository
assigns it — reaching the in-range branch of `_update_attack` (resolved
live enemy target within `attack_range`) executes
`self.attack_timer += dt`, which reads the missing attribute and raises
`AttributeError`. -/
theorem update_attack_missing_timer_faults (self target : GameUnit)
    (gs : GameState) (dt : ℝ) (rnd : ℝ × ℝ)
    (htimer : self.attack_timer = none)
    (hres : resolveTarget self.target gs = some target)
    (hvalid : isValidTarget self target)
    (hrange : Real.sqrt
        ((target.position.x - self.position.x) * (target.position.x - self.position.x) +
         (target.position.y - self.position.y) * (target.position.y - self.position.y)) ≤
      self.attack_range) :
    updateAttack self dt gs rnd = .error .attributeError := by
  have h1 : ¬¬ isValidTarget self target := not_not_intro hvalid
  have h2 : ¬ (Real.sqrt
      ((target.position.x - self.position.x) * (target.position.x - self.position.x) +
       (target.position.y - self.position.y) * (target.position.y - self.position.y)) >
      self.attack_range) := not_lt.mpr hrange
  simp only [updateAttack, hres, htimer]
  rw [if_neg h1, if_neg h2]

/-- C4 witness: a freshly constructed player unit set attacking a live
enemy unit standing at distance 1 (inside its default `attack_range = 1`)
makes the very first `_update_attack` tick raise `AttributeError`. -/
theorem update_attack_missing_timer_faults_witness :
    updateAttack
      { initUnit 0 "rick" ⟨0, 0, 0⟩ "player" with
          state := .attacking, target := some (.byRef 1) }
      (1 / 60)
      ⟨[{ initUnit 0 "rick" ⟨0, 0, 0⟩ "player" with
          state := .attacking, target := some (.byRef 1) }],
        [initUnit 1 "gromflomite" ⟨1, 0, 0⟩ "enemy"]⟩
      (1, 0) = .error .attributeError := by
  apply update_attack_missing_timer_faults _ (initUnit 1 "gromflomite" ⟨1, 0, 0⟩ "enemy")
  · rfl
  · simp [resolveTarget, findById, initUnit]
  · constructor
    · simp [initUnit]
    · simp [initUnit]
  · norm_num [initUnit, Real.sqrt_one]

/-- C10 (amended): a projectile whose resolved owner faction is neither
`"player"` nor `"enemy"` has an empty `units_to_check` list, so its
collision check examines no units at all: it damages nobody, produces no
hit or explosion effect, never deactivates the projectile, and leaves the
world untouched.  (The original claim's conclusion that such a projectile
always flies until its lifetime expires is still false for neutral
grenades, which explode on ground contact — see the counterexample.) -/
theorem neutral_projectile_collisions_noop (p : Projectile) (gs : GameState)
    (rnd : ℝ × ℝ) (hp : ownerFaction p.owner ≠ "player")
    (he : ownerFaction p.owner ≠ "enemy") :
    checkCollisions p gs rnd = .ok (p, gs, []) := by
  simp only [checkCollisions]
  rw [if_neg hp, if_neg he]
  rfl

/-- C10 witness: an ownerless arrow sitting right on top of a live enemy
unit (distance 0.5 < collision radius 1) still hits nothing: the
collision check returns the projectile, world and effect list
unchanged. -/
theorem neutral_projectile_collisions_noop_witness :
    checkCollisions
      (fireProjectile ⟨0, 0, 0⟩ (some ⟨6, 8, 0⟩) none "arrow" .null 10)
      ⟨[initUnit 0 "rick" ⟨0, 0, 0⟩ "player"],
       [initUnit 1 "gromflomite" ⟨0.5, 0, 0⟩ "enemy"]⟩ (1, 0) =
      .ok (fireProjectile ⟨0, 0, 0⟩ (some ⟨6, 8, 0⟩) none "arrow" .null 10,
        ⟨[initUnit 0 "rick" ⟨0, 0, 0⟩ "player"],
         [initUnit 1 "gromflomite" ⟨0.5, 0, 0⟩ "enemy"]⟩, []) := by
  apply neutral_projectile_collisions_noop
  · simp [fireProjectile, initProjectile, ownerFaction]
  · simp [fireProjectile, initProjectile, ownerFaction]

/-- C10 counterexample: a neutral (ownerless) grenade fired from the
origin toward (6,8,0) (speed 60, `max_lifetime` 10, initial upward
`z_velocity` 20) is *deactivated after 4 seconds of updates* — it falls
back to the ground and explodes on contact — even though its lifetime 4
is far from the 10-second expiry, refuting the claim that a
neutral-owned projectile always flies until its lifetime expires. -/
theorem neutral_grenade_deactivates_before_lifetime :
    (projSteps 1 (fireProjectile ⟨0, 0, 0⟩ (some ⟨6, 8, 0⟩) none "grenade" .null 30)
        ⟨[], []⟩ (1, 0) 4).map
      (fun r => (r.1.active, r.1.lifetime, r.1.max_lifetime)) =
      .ok (false, 4, 10) ∧ (4 : ℝ) < 10 := by
  have h100 : Real.sqrt (100 : ℝ) = 10 := by
    rw [show (100 : ℝ) = 10 ^ 2 by norm_num]
    exact Real.sqrt_sq (by norm_num)
  have hsa : ¬ ("grenade" : String) = "arrow" := by decide
  have hP0 : fireProjectile ⟨0, 0, 0⟩ (some ⟨6, 8, 0⟩) none "grenade" .null 30 =
      { position := ⟨0, 0, 0⟩, target_position := some ⟨6, 8, 0⟩,
        target_unit := none, speed := 60, damage := 30, owner := .null,
        max_lifetime := 10, lifetime := 0, projectile_type := "grenade",
        active := true, direction := ⟨3 / 5, 4 / 5, 0⟩,
        has_gravity := some true, bounce_factor := some 0.3,
        z_velocity := some 20, explodes := some true,
        explosion_radius := some 15, has_trail := none,
        portal_travels := none, penetrates := none } := by
    norm_num [fireProjectile, initProjectile, h100, hsa]
  have h1 : projectileUpdate
      { position := ⟨0, 0, 0⟩, target_position := some ⟨6, 8, 0⟩,
        target_unit := none, speed := 60, damage := 30, owner := .null,
        max_lifetime := 10, lifetime := 0, projectile_type := "grenade",
        active := true, direction := ⟨3 / 5, 4 / 5, 0⟩,
        has_gravity := some true, bounce_factor := some 0.3,
        z_velocity := some 20, explodes := some true,
        explosion_radius := some 15, has_trail := none,
        portal_travels := none, penetrates := none } 1 ⟨[], []⟩ (1, 0) =
      .ok ({ position := ⟨36, 48, 51 / 5⟩, target_position := some ⟨6, 8, 0⟩,
              target_unit := none, speed := 60, damage := 30, owner := .null,
              max_lifetime := 10, lifetime := 1, projectile_type := "grenade",
              active := true, direction := ⟨3 / 5, 4 / 5, 0⟩,
              has_gravity := some true, bounce_factor := some 0.3,
              z_velocity := some (51 / 5), explodes := some true,
              explosion_radius := some 15, has_trail := none,
              portal_travels := none, penetrates := none }, ⟨[], []⟩, []) := by
    norm_num [projectileUpdate, checkCollisions, collideLoop, ownerFaction]
  have h2 : projectileUpdate
      { position := ⟨36, 48, 51 / 5⟩, target_position := some ⟨6, 8, 0⟩,
        target_unit := none, speed := 60, damage := 30, owner := .null,
        max_lifetime := 10, lifetime := 1, projectile_type := "grenade",
        active := true, direction := ⟨3 / 5, 4 / 5, 0⟩,
        has_gravity := some true, bounce_factor := some 0.3,
        z_velocity := some (51 / 5), explodes := some true,
        explosion_radius := some 15, has_trail := none,
        portal_travels := none, penetrates := none } 1 ⟨[], []⟩ (1, 0) =
      .ok ({ position := ⟨72, 96, 53 / 5⟩, target_position := some ⟨6, 8, 0⟩,
              target_unit := none, speed := 60, damage := 30, owner := .null,
              max_lifetime := 10, lifetime := 2, projectile_type := "grenade",
              active := true, direction := ⟨3 / 5, 4 / 5, 0⟩,
              has_gravity := some true, bounce_factor := some 0.3,
              z_velocity := some (2 / 5), explodes := some true,
              explosion_radius := some 15, has_trail := none,
              portal_travels := none, penetrates := none }, ⟨[], []⟩, []) := by
    norm_num [projectileUpdate, checkCollisions, collideLoop, ownerFaction]
  have h3 : projectileUpdate
      { position := ⟨72, 96, 53 / 5⟩, target_position := some ⟨6, 8, 0⟩,
        target_unit := none, speed := 60, damage := 30, owner := .null,
        max_lifetime := 10, lifetime := 2, projectile_type := "grenade",
        active := true, direction := ⟨3 / 5, 4 / 5, 0⟩,
        has_gravity := some true, bounce_factor := some 0.3,
        z_velocity := some (2 / 5), explodes := some true,
        explosion_radius := some 15, has_trail := none,
        portal_travels := none, penetrates := none } 1 ⟨[], []⟩ (1, 0) =
      .ok ({ position := ⟨108, 144, 6 / 5⟩, target_position := some ⟨6, 8, 0⟩,
              target_unit := none, speed := 60, damage := 30, owner := .null,
              max_lifetime := 10, lifetime := 3, projectile_type := "grenade",
              active := true, direction := ⟨3 / 5, 4 / 5, 0⟩,
              has_gravity := some true, bounce_factor := some 0.3,
              z_velocity := some (-47 / 5), explodes := some true,
              explosion_radius := some 15, has_trail := none,
              portal_travels := none, penetrates := none }, ⟨[], []⟩, []) := by
    norm_num [projectileUpdate, checkCollisions, collideLoop, ownerFaction]
  have h4 : projectileUpdate
      { position := ⟨108, 144, 6 / 5⟩, target_position := some ⟨6, 8, 0⟩,
        target_unit := none, speed := 60, damage := 30, owner := .null,
        max_lifetime := 10, lifetime := 3, projectile_type := "grenade",
        active := true, direction := ⟨3 / 5, 4 / 5, 0⟩,
        has_gravity := some true, bounce_factor := some 0.3,
        z_velocity := some (-47 / 5), explodes := some true,
        explosion_radius := some 15, has_trail := none,
        portal_travels := none, penetrates := none } 1 ⟨[], []⟩ (1, 0) =
      .ok ({ position := ⟨108, 144, 6 / 5⟩, target_position := some ⟨6, 8, 0⟩,
              target_unit := none, speed := 60, damage := 30, owner := .null,
              max_lifetime := 10, lifetime := 4, projectile_type := "grenade",
              active := false, direction := ⟨3 / 5, 4 / 5, 0⟩,
              has_gravity := some true, bounce_factor := some 0.3,
              z_velocity := some (-96 / 5), explodes := some true,
              explosion_radius := some 15, has_trail := none,
              portal_travels := none, penetrates := none }, ⟨[], []⟩,
        [.explosion ⟨108, 144, 0⟩ 15 30 .null]) := by
    norm_num [projectileUpdate, checkCollisions, collideLoop, ownerFaction]
  refine ⟨?_, by norm_num⟩
  rw [hP0]
  simp only [projSteps, h1, h2, h3, h4]
  rfl

/-- The travel direction computed by the formation code is always a unit
vector: either a normalization of a nonzero vector or the default
`(0, 1)`. -/
theorem formDirection_norm (p t : Vec2) :
    (formDirection p t).x ^ 2 + (formDirection p t).y ^ 2 = 1 := by
  unfold formDirection
  set dx := t.x - p.x with hdx
  set dy := t.y - p.y with hdy
  by_cases h : Real.sqrt (dx ^ 2 + dy ^ 2) > 0
  · have hsq : Real.sqrt (dx ^ 2 + dy ^ 2) ^ 2 = dx ^ 2 + dy ^ 2 :=
      Real.sq_sqrt (by positivity)
    have hs0 : dx ^ 2 + dy ^ 2 ≠ 0 := by
      intro h0
      rw [h0, Real.sqrt_zero] at h
      exact lt_irrefl 0 h
    simp only [h, if_pos]
    rw [div_pow, div_pow, hsq, div_add_div_same, div_self hs0]
  · simp only [h, if_neg, not_false_iff]
    norm_num

/-- The linear frame `(perp, direction)` used by the formation code is
injective when the direction is a unit vector: equal world positions
force equal relative coordinates. -/
theorem frame_inj (d : Vec2) (hd : d.x ^ 2 + d.y ^ 2 = 1) (t : Vec2)
    (a₁ b₁ a₂ b₂ : ℝ)
    (hx : t.x + a₁ * -d.y + b₁ * d.x = t.x + a₂ * -d.y + b₂ * d.x)
    (hy : t.y + a₁ * d.x + b₁ * d.y = t.y + a₂ * d.x + b₂ * d.y) :
    a₁ = a₂ ∧ b₁ = b₂ := by
  have e1 : (a₁ - a₂) * -d.y + (b₁ - b₂) * d.x = 0 := by linarith
  have e2 : (a₁ - a₂) * d.x + (b₁ - b₂) * d.y = 0 := by linarith
  constructor
  · linear_combination (-d.y) * e1 + d.x * e2 - (a₁ - a₂) * hd
  · linear_combination d.x * e1 + d.y * e2 - (b₁ - b₂) * hd

/-- Distinctness of `_form_column` positions at the default spacing:
units in the same two-wide row differ in the perpendicular offset
`(row − 0.5) * spacing` and units in different rows differ in the travel
offset `col * spacing`. -/
theorem formColumn_inj (p t : Vec2) (n i j : ℕ) (hij : i ≠ j) :
    formColumn 30 p t n i ≠ formColumn 30 p t n j := by
  intro heq
  have hD := formDirection_norm p t
  simp only [formColumn, Vec2.mk.injEq] at heq
  obtain ⟨hx, hy⟩ := heq
  obtain ⟨ha, hb⟩ := frame_inj (formDirection p t) hD t _ _ _ _ hx hy
  simp only [show (2 : ℕ) > 1 from by omega, if_pos] at ha
  have hcol : i / 2 = j / 2 := by
    have : ((i / 2 : ℕ) : ℝ) = ((j / 2 : ℕ) : ℝ) := by linarith [hb]
    exact_mod_cast this
  have hrow : i % 2 = j % 2 := by
    have : ((i % 2 : ℕ) : ℝ) = ((j % 2 : ℕ) : ℝ) := by linarith [ha]
    exact_mod_cast this
  omega

/-- Distinctness of `_form_wedge` positions at the default spacing: the
leader sits at the apex, every other unit is `row * 24` behind it, and
same-row units sit on opposite sides of the travel axis. -/
theorem formWedge_inj (p t : Vec2) (i j : ℕ) (hij : i ≠ j) :
    formWedge 30 p t i ≠ formWedge 30 p t j := by
  intro heq
  have hD := formDirection_norm p t
  simp only [formWedge, Vec2.mk.injEq] at heq
  obtain ⟨hx, hy⟩ := heq
  obtain ⟨ha, hb⟩ := frame_inj (formDirection p t) hD t _ _ _ _ hx hy
  by_cases hi0 : i = 0 <;> by_cases hj0 : j = 0
  · exact hij (hi0.trans hj0.symm)
  · -- leader vs follower: the follower is at least one row behind
    simp only [hi0, if_pos, hj0, if_neg, not_false_iff] at hb
    have hr1 : (1 : ℝ) ≤ (((j - 1) / 2 + 1 : ℕ) : ℝ) := by
      exact_mod_cast Nat.one_le_iff_ne_zero.mpr (by omega)
    norm_num at hb
    nlinarith [hb, hr1]
  · simp only [hj0, if_pos, hi0, if_neg, not_false_iff] at hb
    have hr1 : (1 : ℝ) ≤ (((i - 1) / 2 + 1 : ℕ) : ℝ) := by
      exact_mod_cast Nat.one_le_iff_ne_zero.mpr (by omega)
    norm_num at hb
    nlinarith [hb, hr1]
  · -- two followers
    simp only [hi0, hj0, if_neg, not_false_iff] at ha hb
    have hrow : (i - 1) / 2 + 1 = (j - 1) / 2 + 1 := by
      have : (((i - 1) / 2 + 1 : ℕ) : ℝ) = (((j - 1) / 2 + 1 : ℕ) : ℝ) := by
        nlinarith [hb]
      exact_mod_cast this
    have hr1 : (1 : ℝ) ≤ (((i - 1) / 2 + 1 : ℕ) : ℝ) := by
      exact_mod_cast Nat.one_le_iff_ne_zero.mpr (by omega)
    rw [← hrow] at ha
    by_cases hpi : i % 2 = 1 <;> by_cases hpj : j % 2 = 1
    · omega
    · simp only [hpi, if_pos, hpj, if_neg, not_false_iff] at ha
      nlinarith [ha, hr1]
    · simp only [hpj, if_pos, hpi, if_neg, not_false_iff] at ha
      nlinarith [ha, hr1]
    · omega

/-- Distinctness of `_form_line` positions at the default spacing 30 and
width 5: units in the same row differ by a multiple of the spacing along
the row axis, units in different rows differ along the travel axis. -/
theorem formLine_inj (p t : Vec2) (n i j : ℕ) (hij : i ≠ j) :
    formLine 30 5 p t n i ≠ formLine 30 5 p t n j := by
  intro heq
  have hD := formDirection_norm p t
  simp only [formLine, Vec2.mk.injEq] at heq
  obtain ⟨hx, hy⟩ := heq
  obtain ⟨ha, hb⟩ := frame_inj (formDirection p t) hD t _ _ _ _ hx hy
  set U : ℕ := if n ≤ 5 then n else 5 with hU
  have hrow : i / U = j / U := by
    have : ((i / U : ℕ) : ℝ) = ((j / U : ℕ) : ℝ) := by linarith [hb]
    exact_mod_cast this
  rw [hrow] at ha
  have hcol : i % U = j % U := by
    have : ((i % U : ℕ) : ℝ) = ((j % U : ℕ) : ℝ) := by linarith [ha]
    exact_mod_cast this
  exact hij (by
    calc i = U * (i / U) + i % U := (Nat.div_add_mod i U).symm
    _ = U * (j / U) + j % U := by rw [hrow, hcol]
    _ = j := Nat.div_add_mod j U)

/-- Distinctness of `_form_circle` positions at the default spacing: the
angles `2*pi*(i/n)` of two distinct indices `0 ≤ i, j < n` differ by less
than a full turn, so they yield distinct points on the radius-60 ring. -/
theorem formCircle_inj (t : Vec2) (n i j : ℕ) (hi : i < n) (hj : j < n)
    (hij : i ≠ j) : formCircle 30 t n i ≠ formCircle 30 t n j := by
  intro heq
  simp only [formCircle, Vec2.mk.injEq] at heq
  obtain ⟨hx, hy⟩ := heq
  have hcos : Real.cos (2 * Real.pi * ((i : ℝ) / (n : ℝ))) =
      Real.cos (2 * Real.pi * ((j : ℝ) / (n : ℝ))) := by linarith [hx]
  have hsin : Real.sin (2 * Real.pi * ((i : ℝ) / (n : ℝ))) =
      Real.sin (2 * Real.pi * ((j : ℝ) / (n : ℝ))) := by linarith [hy]
  have hangle := Real.Angle.cos_sin_inj hcos hsin
  obtain ⟨k, hk⟩ := Real.Angle.angle_eq_iff_two_pi_dvd_sub.mp hangle
  have hn0 : (n : ℝ) ≠ 0 := by
    have : 0 < n := lt_of_le_of_lt (Nat.zero_le i) hi
    exact_mod_cast this.ne'
  have hπ : (2 : ℝ) * Real.pi ≠ 0 := by
    have := Real.pi_pos
    positivity
  have hfrac : (i : ℝ) / n - (j : ℝ) / n = (k : ℝ) := by
    apply mul_left_cancel₀ hπ
    calc 2 * Real.pi * ((i : ℝ) / n - (j : ℝ) / n)
        = 2 * Real.pi * ((i : ℝ) / (n : ℝ)) - 2 * Real.pi * ((j : ℝ) / (n : ℝ)) := by ring
    _ = 2 * Real.pi * (k : ℝ) := hk
  have hik : (i : ℝ) = (j : ℝ) + (k : ℝ) * (n : ℝ) := by
    field_simp at hfrac
    linarith [hfrac]
  have hikZ : (i : ℤ) = (j : ℤ) + k * (n : ℤ) := by exact_mod_cast hik
  have hiZ : (i : ℤ) < (n : ℤ) := by exact_mod_cast hi
  have hjZ : (j : ℤ) < (n : ℤ) := by exact_mod_cast hj
  have hi0Z : (0 : ℤ) ≤ (i : ℤ) := by positivity
  have hj0Z : (0 : ℤ) ≤ (j : ℤ) := by positivity
  have hijZ : (i : ℤ) ≠ (j : ℤ) := by exact_mod_cast hij
  rcases lt_trichotomy k 0 with hk0 | hk0 | hk0
  · have hk1 : k ≤ -1 := by omega
    have hbound : k * (n : ℤ) ≤ -1 * (n : ℤ) :=
      mul_le_mul_of_nonneg_right hk1 (by omega)
    linarith
  · rw [hk0, zero_mul, add_zero] at hikZ
    exact hijZ hikZ
  · have hk1 : 1 ≤ k := by omega
    have hbound : 1 * (n : ℤ) ≤ k * (n : ℤ) :=
      mul_le_mul_of_nonneg_right hk1 (by omega)
    linarith

/-- C9: with the squad defaults `formation_spacing = 30` and
`formation_width = 5`, for any squad and target positions and any squad
size `n > 1`, recomputing the formation in line, wedge, column or circle
formation assigns any two distinct member indices `i ≠ j < n` distinct
formation positions (the random-radius scattered formation is the one
excluded by the claim). -/
theorem formation_positions_distinct (ft : FormationType) (p t : Vec2)
    (n i j : ℕ) (rnd : ℕ → ℝ) (hft : ft ≠ .SCATTERED) (hn : 1 < n)
    (hi : i < n) (hj : j < n) (hij : i ≠ j) :
    formationPosition ft 30 5 p t n i rnd ≠
      formationPosition ft 30 5 p t n j rnd := by
  cases ft with
  | LINE => exact formLine_inj p t n i j hij
  | WEDGE => exact formWedge_inj p t i j hij
  | COLUMN => exact formColumn_inj p t n i j hij
  | SCATTERED => exact absurd rfl hft
  | CIRCLE => exact formCircle_inj t n i j hi hj hij

/-- C9 witness: in a 3-unit squad at the origin in circle formation, the
members at indices 0 and 1 get different formation positions. -/
theorem formation_positions_distinct_witness :
    formationPosition .CIRCLE 30 5 ⟨0, 0⟩ ⟨0, 0⟩ 3 0 (fun _ => 0) ≠
      formationPosition .CIRCLE 30 5 ⟨0, 0⟩ ⟨0, 0⟩ 3 1 (fun _ => 0) :=
  formation_positions_distinct .CIRCLE ⟨0, 0⟩ ⟨0, 0⟩ 3 0 1 (fun _ => 0)
    (by decide) (by decide) (by decide) (by decide) (by decide)

end RTS
